import Mathlib

/-!
Shallow embedding of the `submitTransaction` command
(`src/extension/commands/submitTransaction.ts`) and of the parameter-stub
block of the generated functional-test template (`src/unnamed/part_000`)
of the blockchain VSCode extension, with proofs about the user-visible
behaviour of the command.

External collaborators (VSCode input boxes and quick picks, `JSON.parse`,
the Fabric SDK connection object) are modelled as an environment record
whose fields give the answer each external call returns during one
invocation of the command.  `Buffer.from` is modelled by the abstract
constructor `JsVal.buffer`.  A run of the command is modelled as the list
of user-visible events it produces plus the single delegated SDK call,
when the command reaches it.
-/

namespace BlockchainExtension

/-- JavaScript-like values flowing through the command: results of
`JSON.parse`, the positional argument list, transient-data maps, and
`Buffer.from` results (`buffer v` models `Buffer.from(v)`). -/
inductive JsVal where
  | str (s : String)
  | num (n : Int)
  | bool (b : Bool)
  | null
  | arr (elems : List JsVal)
  | obj (fields : List (String × JsVal))
  | buffer (v : JsVal)

/-- Data carried by a `TransactionTreeItem` tree-view selection. -/
structure TransactionTreeItemData where
  chaincodeName : String
  name : String
  channelName : String
  contractName : String

/-- Data carried by an `InstantiatedTreeItem` tree-view selection;
`channel0Label` models `treeItem.channels[0].label`. -/
structure InstantiatedTreeItemData where
  channel0Label : String
  name : String

/-- The `treeItem` parameter of the command: either a
`TransactionTreeItem` or an `InstantiatedTreeItem`. -/
inductive TreeItem where
  | transactionItem (t : TransactionTreeItemData)
  | instantiatedItem (t : InstantiatedTreeItemData)

/-- One entry of the list returned by `connection.getChannelPeersInfo`. -/
structure ChannelPeer where
  name : String
  mspID : String

/-- One entry returned by `UserInputUtil.showChannelPeersQuickPick`;
only its `data` field (the peer name) is used by the command. -/
structure PeerPickItem where
  data : String

/-- An exception thrown by `connection.submitTransaction`: its `message`
and its optional `endorsements` array (modelled as the list of the
endorsement error messages; `[]` models a missing `endorsements` field). -/
structure SdkError where
  message : String
  endorsements : List String

/-- User-visible events produced during one invocation of the command:
log lines, prompts shown, and the external calls made. -/
inductive Event where
  | logInfo (msg : String)
  | logError (msg : String)
  | logSuccess (msg : String) (detail : String)
  | connectCommand
  | promptSmartContract
  | promptTransaction
  | promptArgs
  | promptTransient
  | promptPeerPolicy
  | promptCustomPeers
  | getChannelPeers
  | progressReport (msg : String)
  | showDockerOutput
  | sdkSubmit
  | telemetry (eventName : String)
  | showOutput
deriving DecidableEq

/-- The environment of one invocation: what every external collaborator
answers when the command calls it.  `jsonParse` is the `JSON.parse`
oracle (`Except.error m` models a parse exception with message `m`);
`sdkResponse` is the outcome of `connection.submitTransaction`
(`Except.error` models a thrown exception). -/
structure Env where
  hasConnection : Bool
  hasConnectionAfterConnect : Bool
  chosenSmartContract : Option (String × String)
  chosenTransaction : Option (String × String)
  argsInput : Option String
  transientInput : Option String
  jsonParse : String → Except String JsVal
  channelPeers : List ChannelPeer
  peerPolicyChoice : Option String
  customPeers : Option (List PeerPickItem)
  gatewayName : String
  sdkResponse : Except SdkError (Option String)

/-- The eight arguments of the one delegated
`connection.submitTransaction(smartContract, transactionName, channelName,
args, namespace, transientData, evaluateOnly, peerTargetNames)` call, in
the order of the TypeScript signature.  `Option` fields model values that
can be `undefined` in JavaScript. -/
structure SdkCall where
  smartContract : Option String
  transactionName : String
  channelName : Option String
  args : JsVal
  nspace : String
  transientData : Option JsVal
  evaluateOnly : Bool
  peerTargetNames : List String

/-- Result of one invocation of the command: the event trace and the
delegated SDK call, when one was made. -/
structure RunResult where
  trace : List Event
  sdkCall : Option SdkCall

/-- JavaScript truthiness test for an optional string: `undefined` and
the empty string are falsy. -/
def falsyString : Option String → Bool
  | none => true
  | some s => s.isEmpty

namespace UserInputUtil

/-- Models the constant `UserInputUtil.DEFAULT` (the default
peer-targeting policy label); the file defining it is not part of the
sources, only its distinctness from `CUSTOM` matters here. -/
def DEFAULT : String := "Default"

/-- Models the constant `UserInputUtil.CUSTOM` (the custom
peer-targeting policy label). -/
def CUSTOM : String := "Custom"

end UserInputUtil

namespace FabricRuntimeUtil

/-- Models the constant `FabricRuntimeUtil.LOCAL_FABRIC`, the name of the
managed local gateway. -/
def LOCAL_FABRIC : String := "local_fabric"

end FabricRuntimeUtil

/-- The target resolved by the first part of the command: smart contract,
transaction name, channel name and namespace. -/
structure ResolvedTarget where
  smartContract : Option String
  transactionName : String
  channelName : Option String
  nspace : String

/-- Lines 53-72 of `submitTransaction.ts`: resolve the channel name and
smart contract name when the selection is not a `TransactionTreeItem`.
When nothing was passed in, ensure a gateway connection (prompting to
connect when there is none) and show the instantiated-smart-contracts
quick pick; an `InstantiatedTreeItem` supplies its first channel and its
name; otherwise the values passed in are kept. -/
def resolveChannelContract (treeItem : Option TreeItem)
    (channelName0 smartContract0 : Option String) (env : Env) :
    List Event × Option (Option String × Option String) :=
  if treeItem.isNone && falsyString channelName0 && falsyString smartContract0 then
    if env.hasConnection then
      match env.chosenSmartContract with
      | none => ([Event.promptSmartContract], none)
      | some (name, channel) =>
          ([Event.promptSmartContract], some (some channel, some name))
    else if env.hasConnectionAfterConnect then
      match env.chosenSmartContract with
      | none => ([Event.connectCommand, Event.promptSmartContract], none)
      | some (name, channel) =>
          ([Event.connectCommand, Event.promptSmartContract], some (some channel, some name))
    else
      ([Event.connectCommand], none)
  else
    match treeItem with
    | some (TreeItem.instantiatedItem t) => ([], some (some t.channel0Label, some t.name))
    | _ => ([], some (channelName0, smartContract0))

/-- Lines 44-81 of `submitTransaction.ts`: resolve the full target.  A
`TransactionTreeItem` selection supplies everything; otherwise the
channel and contract are resolved and the transaction quick pick is
shown.  `none` models an early `return`. -/
def resolvePhase (treeItem : Option TreeItem)
    (channelName0 smartContract0 : Option String) (env : Env) :
    List Event × Option ResolvedTarget :=
  match treeItem with
  | some (TreeItem.transactionItem t) =>
      ([], some ⟨some t.chaincodeName, t.name, some t.channelName, t.contractName⟩)
  | _ =>
    match resolveChannelContract treeItem channelName0 smartContract0 env with
    | (events, none) => (events, none)
    | (events, some (channelName1, smartContract1)) =>
      match env.chosenTransaction with
      | none => (events ++ [Event.promptTransaction], none)
      | some (txName, contract) =>
          (events ++ [Event.promptTransaction], some ⟨smartContract1, txName, channelName1, contract⟩)

/-- Models JavaScript `s.startsWith(pre)` (computably over the character
list of the string). -/
def jsStartsWith (s pre : String) : Bool := pre.data.isPrefixOf s.data

/-- Models JavaScript `s.endsWith(suf)` (computably over the character
list of the string). -/
def jsEndsWith (s suf : String) : Bool := suf.data.reverse.isPrefixOf s.data.reverse

/-- The message of the error thrown at line 92 of `submitTransaction.ts`
when the argument string is not bracketed. -/
def txArgsFormatError : String :=
  "transaction arguments should be in the format [\x22arg1\x22, \x7b\x22key\x22 : \x22value\x22\x7d]"

/-- Lines 83-99 of `submitTransaction.ts`: show the arguments input box;
`undefined` returns, the empty string gives `[]`, anything else must
start with a bracket, end with a bracket and parse as JSON, otherwise an
error is logged and the command returns (`none`). -/
def argsPhase (env : Env) : List Event × Option JsVal :=
  match env.argsInput with
  | none => ([Event.promptArgs], none)
  | some argsString =>
    if argsString = "" then ([Event.promptArgs], some (JsVal.arr []))
    else if !(jsStartsWith argsString "[") || !(jsEndsWith argsString "]") then
      ([Event.promptArgs,
        Event.logError ("Error with transaction arguments: " ++ txArgsFormatError)], none)
    else
      match env.jsonParse argsString with
      | Except.error msg =>
          ([Event.promptArgs,
            Event.logError ("Error with transaction arguments: " ++ msg)], none)
      | Except.ok parsed => ([Event.promptArgs], some parsed)

/-- The message of the error thrown at line 110 of `submitTransaction.ts`
when the transient-data string is not brace-delimited. -/
def transientFormatError : String :=
  "transient data should be in the format \x7b\x22key\x22: \x22value\x22\x7d"

/-- Lines 113-117 of `submitTransaction.ts`: replace every value of the
parsed transient-data object by `Buffer.from` of that value.  With a
JSON parser and the brace guard the parsed value is always an object, so
the catch-all arm is unreachable in practice. -/
def bufferizeTransient : JsVal → JsVal
  | JsVal.obj fields => JsVal.obj (fields.map (fun kv => (kv.1, JsVal.buffer kv.2)))
  | v => v

/-- Lines 101-122 of `submitTransaction.ts`: show the transient-data
input box; `undefined` returns, the empty string and the literal string
of an empty object leave the transient data `undefined` (`some none`),
anything else must be brace-delimited and parse as JSON (else the error
is caught, logged and the command returns), and its values are replaced
by buffers. -/
def transientPhase (env : Env) : List Event × Option (Option JsVal) :=
  match env.transientInput with
  | none => ([Event.promptTransient], none)
  | some s =>
    if s = "" || s = "\x7b\x7d" then ([Event.promptTransient], some none)
    else if !(jsStartsWith s "\x7b") || !(jsEndsWith s "\x7d") then
      ([Event.promptTransient,
        Event.logError ("Error with transaction transient data: " ++ transientFormatError)], none)
    else
      match env.jsonParse s with
      | Except.error msg =>
          ([Event.promptTransient,
            Event.logError ("Error with transaction transient data: " ++ msg)], none)
      | Except.ok parsed =>
          ([Event.promptTransient], some (some (bufferizeTransient parsed)))

/-- Lines 141-156 of `submitTransaction.ts`: from the selected policy,
compute the peer target names and the peer-target log-message suffix.
A falsy selection returns; `CUSTOM` shows the channel-peers quick pick
and returns unless at least one peer was picked; anything else (the
default policy) keeps the empty target list. -/
def peersSelect (env : Env) (events : List Event) (selectPeers : Option String) :
    List Event × Option (List String × String) :=
  if falsyString selectPeers then (events, none)
  else if selectPeers = some UserInputUtil.CUSTOM then
    match env.customPeers with
    | none => (events ++ [Event.promptCustomPeers], none)
    | some targets =>
      if targets.length = 0 then (events ++ [Event.promptCustomPeers], none)
      else
        (events ++ [Event.promptCustomPeers],
         some (targets.map (fun p => p.data),
               " to peers " ++ String.intercalate "," (targets.map (fun p => p.data))))
  else (events, some ([], ""))

/-- Lines 125-156 of `submitTransaction.ts`: call
`getChannelPeersInfo`; with no peers log an error and return, with
exactly one peer imply the default policy without prompting, otherwise
prompt for the policy; then resolve the peer targets. -/
def peersPhase (env : Env) : List Event × Option (List String × String) :=
  if env.channelPeers.length = 0 then
    ([Event.getChannelPeers, Event.logError "No channel peers available to target"], none)
  else if env.channelPeers.length = 1 then
    peersSelect env [Event.getChannelPeers] (some UserInputUtil.DEFAULT)
  else
    peersSelect env [Event.getChannelPeers, Event.promptPeerPolicy] env.peerPolicyChoice

/-- Models `args.length === 0` at line 166: arrays and strings have a
numeric `length`; for every other value `length` is `undefined` and the
strict comparison with `0` is false. -/
def jsArgsLengthZero : JsVal → Bool
  | JsVal.arr elems => elems.isEmpty
  | JsVal.str s => s.isEmpty
  | _ => false

/-- Renders an optional string the way JavaScript template literals
render `undefined`. -/
def optStr : Option String → String
  | none => "undefined"
  | some s => s

/-- The info line logged at lines 166-170 (the rendering of the argument
list inside the message is elided). -/
def submitLogMessage (actioning : String) (target : ResolvedTarget) (args : JsVal)
    (peerTargetMessage : String) : String :=
  if jsArgsLengthZero args then
    actioning ++ " transaction " ++ target.transactionName ++ " with no args on channel "
      ++ optStr target.channelName ++ peerTargetMessage
  else
    actioning ++ " transaction " ++ target.transactionName ++ " with args on channel "
      ++ optStr target.channelName ++ peerTargetMessage

/-- The success message built at lines 187-192. -/
def resultMessage (txName : String) : Option String → String
  | none => "No value returned from " ++ txName
  | some value => "Returned value from " ++ txName ++ ": " ++ value

/-- Lines 198-202: one error line per entry of `error.endorsements`. -/
def endorsementLogs : List String → List Event
  | [] => []
  | m :: rest => Event.logError ("Endorsement failed with: " ++ m) :: endorsementLogs rest

/-- Line 173-175: the docker output channel is shown when the connected
gateway is the managed local Fabric. -/
def dockerEvents (env : Env) : List Event :=
  if env.gatewayName = FabricRuntimeUtil.LOCAL_FABRIC then [Event.showDockerOutput] else []

/-- Lines 177-203: the delegated SDK call and what follows it.  On
success one telemetry event is sent, the success line is logged and the
output channel is shown; on a thrown exception the error line and the
endorsement failures are logged and no telemetry event is sent. -/
def sdkOutcomeEvents (action actioning actioned txName : String) (env : Env) : List Event :=
  match env.sdkResponse with
  | Except.ok result =>
      [Event.sdkSubmit, Event.telemetry (action ++ " transaction"),
       Event.logSuccess ("Successfully " ++ actioned ++ " transaction") (resultMessage txName result),
       Event.showOutput]
  | Except.error err =>
      Event.sdkSubmit
        :: Event.logError ("Error " ++ actioning ++ " transaction: " ++ err.message)
        :: endorsementLogs err.endorsements

/-- Lines 158-204 of `submitTransaction.ts`: the `withProgress` block.
Produces the events of the block and the single delegated SDK call,
whose `evaluateOnly` argument is `true` on the evaluate branch and
`false` on the submit branch. -/
def finalPhase (evaluate : Bool) (action actioning actioned : String)
    (target : ResolvedTarget) (args : JsVal) (transientData : Option JsVal)
    (peerTargetNames : List String) (peerTargetMessage : String) (env : Env) :
    List Event × SdkCall :=
  ([Event.progressReport (actioning ++ " transaction " ++ target.transactionName),
    Event.logInfo (submitLogMessage actioning target args peerTargetMessage)]
   ++ dockerEvents env
   ++ sdkOutcomeEvents action actioning actioned target.transactionName env,
   if evaluate then
     ⟨target.smartContract, target.transactionName, target.channelName, args, target.nspace,
      transientData, true, peerTargetNames⟩
   else
     ⟨target.smartContract, target.transactionName, target.channelName, args, target.nspace,
      transientData, false, peerTargetNames⟩)

/-- Line 35 / 39 of `submitTransaction.ts`: the `action` word. -/
def actionWord (evaluate : Bool) : String := if evaluate then "evaluate" else "submit"

/-- Line 36 / 40 of `submitTransaction.ts`: the `actioning` word. -/
def actioningWord (evaluate : Bool) : String := if evaluate then "evaluating" else "submitting"

/-- Line 37 / 41 of `submitTransaction.ts`: the `actioned` word. -/
def actionedWord (evaluate : Bool) : String := if evaluate then "evaluated" else "submitted"

/-- The whole `submitTransaction` command
(`src/extension/commands/submitTransaction.ts`, lines 29-204), as a
function of the invocation arguments and the environment.  `none` values
of the later phases model the early `return` statements; the final
result collects the event trace and the delegated SDK call when the
command reaches it. -/
def submitTransaction (evaluate : Bool) (treeItem : Option TreeItem)
    (channelName0 smartContract0 : Option String) (env : Env) : RunResult :=
  let events0 : List Event := [Event.logInfo (actionWord evaluate ++ "Transaction")]
  match resolvePhase treeItem channelName0 smartContract0 env with
  | (events1, none) => ⟨events0 ++ events1, none⟩
  | (events1, some target) =>
    match argsPhase env with
    | (events2, none) => ⟨events0 ++ events1 ++ events2, none⟩
    | (events2, some args) =>
      match transientPhase env with
      | (events3, none) => ⟨events0 ++ events1 ++ events2 ++ events3, none⟩
      | (events3, some transientData) =>
        match peersPhase env with
        | (events4, none) => ⟨events0 ++ events1 ++ events2 ++ events3 ++ events4, none⟩
        | (events4, some (peerTargetNames, peerTargetMessage)) =>
          match finalPhase evaluate (actionWord evaluate) (actioningWord evaluate)
              (actionedWord evaluate) target args transientData
              peerTargetNames peerTargetMessage env with
          | (events5, call) =>
              ⟨events0 ++ events1 ++ events2 ++ events3 ++ events4 ++ events5, some call⟩

/-- True exactly on the delegated-SDK-call event. -/
def isSdkSubmitEvent : Event → Bool
  | Event.sdkSubmit => true
  | _ => false

/-- True exactly on error log lines. -/
def isLogErrorEvent : Event → Bool
  | Event.logError _ => true
  | _ => false

/-- True exactly on telemetry events. -/
def isTelemetryEvent : Event → Bool
  | Event.telemetry _ => true
  | _ => false

/-- True exactly on the two peer-targeting prompts (the policy quick
pick and the custom channel-peers quick pick). -/
def isPeerPromptEvent : Event → Bool
  | Event.promptPeerPolicy => true
  | Event.promptCustomPeers => true
  | _ => false

/-- True exactly on the peer-targeting policy quick pick. -/
def isPeerPolicyPromptEvent : Event → Bool
  | Event.promptPeerPolicy => true
  | _ => false

/-- Phase number of the milestone events of a complete run: target
resolution 1, arguments prompt 2, transient prompt 3, peer targeting 4,
the delegated call 5, the final success or failure report 6.  Events
that can occur in several phases (plain info lines, progress, telemetry,
showing output channels) carry no milestone.  In a complete run the only
error lines are the final failure report, so `logError` is a reporting
milestone. -/
def milestone : Event → Option Nat
  | Event.connectCommand => some 1
  | Event.promptSmartContract => some 1
  | Event.promptTransaction => some 1
  | Event.promptArgs => some 2
  | Event.promptTransient => some 3
  | Event.getChannelPeers => some 4
  | Event.promptPeerPolicy => some 4
  | Event.promptCustomPeers => some 4
  | Event.sdkSubmit => some 5
  | Event.logSuccess _ _ => some 6
  | Event.logError _ => some 6
  | _ => none

/-- The `parameter.schema` object of a transaction parameter in the
contract metadata: its optional `type` field. -/
structure ParameterSchema where
  type : Option String

/-- A transaction parameter of the contract metadata consumed by the
test template: its name and its optional schema. -/
structure TransactionParameter where
  name : String
  schema : Option ParameterSchema

/-- The guard `parameter.schema && parameter.schema.type` of the
template: the declared type when both are truthy (the empty string is
falsy in JavaScript). -/
def schemaTypeTruthy (p : TransactionParameter) : Option String :=
  match p.schema with
  | none => none
  | some sch =>
    match sch.type with
    | none => none
    | some t => if t = "" then none else some t

/-- Deletes the first double-quote character of a character list. -/
def removeFirstQuoteChars : List Char → List Char
  | [] => []
  | c :: rest => if c = '\x22' then rest else c :: removeFirstQuoteChars rest

/-- Models `parameter.name.replace(quote, empty)`: JavaScript `replace`
with a string pattern replaces only the first occurrence. -/
def replaceFirstQuote (s : String) : String :=
  String.mk (removeFirstQuoteChars s.data)

/-- What the template emits for one transaction parameter: a `const`
stub line and an entry pushed onto the `params` list, or nothing. -/
inductive ParamEmission where
  | emits (stub : String) (paramsEntry : String)
  | skipped

/-- Lines 75-97 of the test template: the parameter block.  A truthy
declared schema type selects among the `string`, `number`, `boolean`
and `array` branches; any other truthy type matches no branch and emits
nothing; a parameter without a truthy schema type gets the object stub
fallback. -/
def paramEmission (p : TransactionParameter) : ParamEmission :=
  match schemaTypeTruthy p with
  | some t =>
    if t = "string" then
      ParamEmission.emits ("const " ++ replaceFirstQuote p.name ++ " = \x27EXAMPLE\x27;")
        (" " ++ replaceFirstQuote p.name)
    else if t = "number" then
      ParamEmission.emits ("const " ++ replaceFirstQuote p.name ++ " = 0;")
        (" " ++ replaceFirstQuote p.name ++ ".toString()")
    else if t = "boolean" then
      ParamEmission.emits ("const " ++ replaceFirstQuote p.name ++ " = true;")
        (" " ++ replaceFirstQuote p.name ++ ".toString()")
    else if t = "array" then
      ParamEmission.emits ("const " ++ replaceFirstQuote p.name ++ " = [];")
        (" JSON.stringify(" ++ replaceFirstQuote p.name ++ ")")
    else ParamEmission.skipped
  | none =>
    ParamEmission.emits ("const " ++ replaceFirstQuote p.name ++ " = \x7b\x7d;")
      (" JSON.stringify(" ++ replaceFirstQuote p.name ++ ")")

/-- The `transaction.parameters.forEach` loop of the template: the
emitted stub lines and the accumulated `params` entries, in parameter
order. -/
def parameterStubs : List TransactionParameter → List String × List String
  | [] => ([], [])
  | p :: rest =>
    match paramEmission p with
    | ParamEmission.emits stub entry =>
        ((stub :: (parameterStubs rest).1), (entry :: (parameterStubs rest).2))
    | ParamEmission.skipped => parameterStubs rest

/-- Line 98 of the template: the generated `const args = [...]` line
(EJS renders the array by joining its entries with commas). -/
def generatedArgsLine (ps : List TransactionParameter) : String :=
  "const args = [" ++ String.intercalate "," (parameterStubs ps).2 ++ "];"

/-- A `JSON.parse` oracle that rejects every string, for runs whose
inputs are never parsed. -/
def noParse : String → Except String JsVal :=
  fun _ => Except.error "Unexpected token"

/-- A sample `TransactionTreeItem` selection used by concrete runs. -/
def sampleTreeItem : TreeItem :=
  TreeItem.transactionItem ⟨"fabcar", "createCar", "mychannel", "FabCar"⟩

/-- Builds a concrete environment whose connection, contract and
transaction answers are fixed. -/
def mkEnv (argsInput transientInput : Option String)
    (jsonParse : String → Except String JsVal) (peers : List ChannelPeer)
    (policy : Option String) (custom : Option (List PeerPickItem))
    (sdkResponse : Except SdkError (Option String)) : Env :=
  ⟨true, true, some ("fabcar", "mychannel"), some ("createCar", "FabCar"),
   argsInput, transientInput, jsonParse, peers, policy, custom, "myGateway", sdkResponse⟩

/-- A single-peer channel. -/
def onePeer : List ChannelPeer := [⟨"peer0.org1", "Org1MSP"⟩]

/-- A concrete environment for a successful run: empty arguments, empty
transient data, one channel peer, successful SDK call. -/
def baseEnv : Env :=
  mkEnv (some "") (some "") noParse onePeer none none (Except.ok (some "OK"))

/-- A concrete environment whose delegated SDK call throws an
endorsement failure. -/
def sdkFailEnv : Env :=
  mkEnv (some "") (some "") noParse onePeer none none
    (Except.error ⟨"endorse fail", ["bad endorsement"]⟩)

/-- A concrete environment whose argument input is malformed. -/
def badArgsEnv : Env :=
  mkEnv (some "oops") (some "") noParse onePeer none none (Except.ok none)

/-- A concrete environment with no channel peers. -/
def noPeersEnv : Env :=
  mkEnv (some "") (some "") noParse [] none none (Except.ok none)

/-- A `JSON.parse` oracle for the concrete transient-data run. -/
def transientParse : String → Except String JsVal :=
  fun s =>
    if s = "\x7b\x22k\x22:\x22v\x22\x7d" then Except.ok (JsVal.obj [("k", JsVal.str "v")])
    else Except.error "Unexpected token"

/-- A concrete environment whose transient input is a one-field object. -/
def transientEnv : Env :=
  mkEnv (some "") (some "\x7b\x22k\x22:\x22v\x22\x7d") transientParse onePeer none none
    (Except.ok none)

/-! Helper lemmas about the individual phases. -/

theorem resolveChannelContract_mem (treeItem : Option TreeItem) (ch sc : Option String)
    (env : Env) (e : Event)
    (he : e ∈ (resolveChannelContract treeItem ch sc env).1) :
    e = Event.connectCommand ∨ e = Event.promptSmartContract := by
  unfold resolveChannelContract at he
  repeat' split at he
  all_goals simp_all

theorem resolvePhase_mem (treeItem : Option TreeItem) (ch sc : Option String)
    (env : Env) (e : Event)
    (he : e ∈ (resolvePhase treeItem ch sc env).1) :
    e = Event.connectCommand ∨ e = Event.promptSmartContract ∨ e = Event.promptTransaction := by
  unfold resolvePhase at he
  split at he
  · simp_all
  · split at he
    · rename_i hrc
      have := resolveChannelContract_mem treeItem ch sc env e
      rw [hrc] at this
      simp_all; tauto
    · rename_i hrc
      have := resolveChannelContract_mem treeItem ch sc env e
      rw [hrc] at this
      split at he
      all_goals
        simp only [List.mem_append, List.mem_singleton] at he
        rcases he with he | he
        · have := this he; tauto
        · tauto

theorem argsPhase_mem (env : Env) (e : Event) (he : e ∈ (argsPhase env).1) :
    e = Event.promptArgs ∨ isLogErrorEvent e = true := by
  unfold argsPhase at he
  repeat' split at he
  all_goals simp_all [isLogErrorEvent]
  all_goals (rcases he with rfl | rfl <;> simp [isLogErrorEvent])

theorem transientPhase_mem (env : Env) (e : Event) (he : e ∈ (transientPhase env).1) :
    e = Event.promptTransient ∨ isLogErrorEvent e = true := by
  unfold transientPhase at he
  repeat' split at he
  all_goals simp_all [isLogErrorEvent]
  all_goals (rcases he with rfl | rfl <;> simp [isLogErrorEvent])

theorem peersSelect_mem (env : Env) (events : List Event) (sel : Option String) (e : Event)
    (he : e ∈ (peersSelect env events sel).1) :
    e ∈ events ∨ e = Event.promptCustomPeers := by
  unfold peersSelect at he
  repeat' split at he
  all_goals simp_all

theorem peersPhase_mem (env : Env) (e : Event) (he : e ∈ (peersPhase env).1) :
    e = Event.getChannelPeers ∨ e = Event.promptPeerPolicy ∨ e = Event.promptCustomPeers
      ∨ isLogErrorEvent e = true := by
  unfold peersPhase at he
  split at he
  · simp only [List.mem_cons, List.mem_singleton, List.not_mem_nil, or_false] at he
    rcases he with rfl | rfl <;> simp [isLogErrorEvent]
  · split at he
    · have := peersSelect_mem env [Event.getChannelPeers] (some UserInputUtil.DEFAULT) e he
      simp_all; tauto
    · have := peersSelect_mem env [Event.getChannelPeers, Event.promptPeerPolicy]
        env.peerPolicyChoice e he
      simp_all; tauto

theorem argsPhase_some (env : Env) (evs : List Event) (args : JsVal)
    (h : argsPhase env = (evs, some args)) :
    evs = [Event.promptArgs] ∧ ∃ s, env.argsInput = some s ∧
      ((s = "" ∧ args = JsVal.arr []) ∨
       (jsStartsWith s "[" = true ∧ jsEndsWith s "]" = true ∧
        env.jsonParse s = Except.ok args)) := by
  unfold argsPhase at h
  repeat' split at h
  all_goals simp_all

theorem argsPhase_malformed (env : Env) (s : String)
    (hin : env.argsInput = some s) (hne : s ≠ "")
    (hmal : jsStartsWith s "[" = false ∨ jsEndsWith s "]" = false ∨
      ∃ m, env.jsonParse s = Except.error m) :
    ∃ m, argsPhase env = ([Event.promptArgs, Event.logError m], none) := by
  unfold argsPhase
  rw [hin]
  by_cases hbr : !(jsStartsWith s "[") || !(jsEndsWith s "]")
  · exact ⟨"Error with transaction arguments: " ++ txArgsFormatError, by simp [hne, hbr]⟩
  · rcases hmal with h | h | ⟨m, h⟩
    · simp [h] at hbr
    · simp [h] at hbr
    · exact ⟨"Error with transaction arguments: " ++ m, by simp [hne, hbr, h]⟩

theorem transientPhase_some (env : Env) (evs : List Event) (td : Option JsVal)
    (h : transientPhase env = (evs, some td)) :
    evs = [Event.promptTransient] ∧ ∃ s, env.transientInput = some s ∧
      (((s = "" ∨ s = "\x7b\x7d") ∧ td = none) ∨
       (s ≠ "" ∧ s ≠ "\x7b\x7d" ∧ ∃ j, env.jsonParse s = Except.ok j ∧
        td = some (bufferizeTransient j))) := by
  unfold transientPhase at h
  repeat' split at h
  all_goals simp_all

theorem peersSelect_some (env : Env) (events : List Event) (sel : Option String)
    (evs : List Event) (pt : List String × String)
    (h : peersSelect env events sel = (evs, some pt)) :
    (evs = events ∧ pt = ([], "") ∧ sel ≠ some UserInputUtil.CUSTOM) ∨
    (evs = events ++ [Event.promptCustomPeers] ∧ sel = some UserInputUtil.CUSTOM ∧
     ∃ targets, env.customPeers = some targets ∧ targets.length ≠ 0 ∧
       pt.1 = targets.map (fun p => p.data)) := by
  unfold peersSelect at h
  repeat' split at h
  all_goals simp_all
  rw [← h.2]

theorem default_policy_not_falsy : falsyString (some UserInputUtil.DEFAULT) = false := by
  decide

theorem default_policy_ne_custom : UserInputUtil.DEFAULT ≠ UserInputUtil.CUSTOM := by
  decide

theorem peersPhase_empty (env : Env) (hempty : env.channelPeers = []) :
    peersPhase env =
      ([Event.getChannelPeers, Event.logError "No channel peers available to target"], none) := by
  unfold peersPhase
  simp [hempty]

theorem peersPhase_single (env : Env) (hone : env.channelPeers.length = 1) :
    peersPhase env = ([Event.getChannelPeers], some ([], "")) := by
  unfold peersPhase peersSelect
  simp [hone, default_policy_not_falsy,
    Option.some_inj.ne.mpr default_policy_ne_custom]

theorem peersPhase_multi (env : Env) (h0 : env.channelPeers.length ≠ 0)
    (h1 : env.channelPeers.length ≠ 1) :
    peersPhase env =
      peersSelect env [Event.getChannelPeers, Event.promptPeerPolicy] env.peerPolicyChoice := by
  unfold peersPhase
  simp [h0, h1]

theorem peersPhase_some (env : Env) (evs : List Event) (pt : List String × String)
    (h : peersPhase env = (evs, some pt)) :
    (evs = [Event.getChannelPeers] ∨ evs = [Event.getChannelPeers, Event.promptPeerPolicy] ∨
     evs = [Event.getChannelPeers, Event.promptPeerPolicy, Event.promptCustomPeers]) ∧
    env.channelPeers.length ≠ 0 := by
  unfold peersPhase at h
  split at h
  · simp_all
  · rename_i hz
    split at h
    · rcases peersSelect_some env _ _ _ _ h with ⟨he, _, _⟩ | ⟨he, hsel, _⟩
      · simp_all
      · exact absurd (Option.some.inj hsel) default_policy_ne_custom
    · rcases peersSelect_some env _ _ _ _ h with ⟨he, _, hnc⟩ | ⟨he, _, _⟩ <;> simp_all

theorem peersPhase_default (env : Env) (evs : List Event) (pt : List String × String)
    (h : peersPhase env = (evs, some pt))
    (hd : env.channelPeers.length = 1 ∨ env.peerPolicyChoice = some UserInputUtil.DEFAULT) :
    pt.1 = [] := by
  by_cases hone : env.channelPeers.length = 1
  · rw [peersPhase_single env hone] at h
    have hpt := (Prod.mk.injEq _ _ _ _ ▸ h).2
    rw [Option.some.injEq] at hpt
    rw [← hpt]
  · rcases hd with h1 | hdef
    · exact absurd h1 hone
    · have h0 : env.channelPeers.length ≠ 0 := (peersPhase_some env evs pt h).2
      rw [peersPhase_multi env h0 hone, hdef] at h
      rcases peersSelect_some env _ _ _ _ h with ⟨_, hpt, _⟩ | ⟨_, hsel, _⟩
      · rw [hpt]
      · exact absurd (Option.some.inj hsel) default_policy_ne_custom

theorem endorsementLogs_mem (l : List String) (e : Event) (he : e ∈ endorsementLogs l) :
    ∃ m, e = Event.logError m := by
  induction l with
  | nil => simp [endorsementLogs] at he
  | cons m rest ih =>
    simp only [endorsementLogs, List.mem_cons] at he
    rcases he with rfl | he
    · exact ⟨_, rfl⟩
    · exact ih he

theorem endorsementLogs_countP (l : List String) (p : Event → Bool)
    (hp : ∀ m, p (Event.logError m) = false) :
    (endorsementLogs l).countP p = 0 := by
  induction l with
  | nil => simp [endorsementLogs]
  | cons m rest ih => simp [endorsementLogs, List.countP_cons, hp, ih]

theorem endorsementLogs_milestones (l : List String) :
    (endorsementLogs l).filterMap milestone = List.replicate l.length 6 := by
  induction l with
  | nil => rfl
  | cons m rest ih => simp [endorsementLogs, milestone, ih, List.replicate_succ]

theorem finalPhase_call (evaluate : Bool) (action actioning actioned : String)
    (target : ResolvedTarget) (args : JsVal) (td : Option JsVal)
    (ptn : List String) (ptm : String) (env : Env) :
    (finalPhase evaluate action actioning actioned target args td ptn ptm env).2 =
      ⟨target.smartContract, target.transactionName, target.channelName, args, target.nspace,
       td, evaluate, ptn⟩ := by
  unfold finalPhase
  cases evaluate <;> rfl

theorem finalPhase_sdk_count (evaluate : Bool) (action actioning actioned : String)
    (target : ResolvedTarget) (args : JsVal) (td : Option JsVal)
    (ptn : List String) (ptm : String) (env : Env) :
    ((finalPhase evaluate action actioning actioned target args td ptn ptm env).1).countP
      isSdkSubmitEvent = 1 := by
  unfold finalPhase dockerEvents sdkOutcomeEvents
  rcases env.sdkResponse with r | err <;> split <;>
    simp [List.countP_append, List.countP_cons, isSdkSubmitEvent]
  all_goals intro a ha
  all_goals rcases endorsementLogs_mem _ _ ha with ⟨m, rfl⟩
  all_goals rfl

theorem finalPhase_error_log (evaluate : Bool) (action actioning actioned : String)
    (target : ResolvedTarget) (args : JsVal) (td : Option JsVal)
    (ptn : List String) (ptm : String) (env : Env) (err : SdkError)
    (herr : env.sdkResponse = Except.error err) :
    Event.logError ("Error " ++ actioning ++ " transaction: " ++ err.message) ∈
      (finalPhase evaluate action actioning actioned target args td ptn ptm env).1 := by
  unfold finalPhase dockerEvents sdkOutcomeEvents
  rw [herr]
  split <;> simp

theorem finalPhase_telemetry_ok (evaluate : Bool) (action actioning actioned : String)
    (target : ResolvedTarget) (args : JsVal) (td : Option JsVal)
    (ptn : List String) (ptm : String) (env : Env) (r : Option String)
    (hok : env.sdkResponse = Except.ok r) :
    ((finalPhase evaluate action actioning actioned target args td ptn ptm env).1).countP
        isTelemetryEvent = 1 ∧
    Event.telemetry (action ++ " transaction") ∈
      (finalPhase evaluate action actioning actioned target args td ptn ptm env).1 := by
  unfold finalPhase dockerEvents sdkOutcomeEvents
  rw [hok]
  constructor
  · split <;> simp [List.countP_append, List.countP_cons, isTelemetryEvent]
  · split <;> simp

theorem finalPhase_telemetry_error (evaluate : Bool) (action actioning actioned : String)
    (target : ResolvedTarget) (args : JsVal) (td : Option JsVal)
    (ptn : List String) (ptm : String) (env : Env) (err : SdkError)
    (herr : env.sdkResponse = Except.error err) :
    ((finalPhase evaluate action actioning actioned target args td ptn ptm env).1).countP
      isTelemetryEvent = 0 := by
  unfold finalPhase dockerEvents sdkOutcomeEvents
  rw [herr]
  split <;> simp [List.countP_append, List.countP_cons, isTelemetryEvent]
  all_goals intro a ha
  all_goals rcases endorsementLogs_mem _ _ ha with ⟨m, rfl⟩
  all_goals rfl

theorem finalPhase_countP_zero (evaluate : Bool) (action actioning actioned : String)
    (target : ResolvedTarget) (args : JsVal) (td : Option JsVal)
    (ptn : List String) (ptm : String) (env : Env) (p : Event → Bool)
    (h1 : ∀ m, p (Event.progressReport m) = false)
    (h2 : ∀ m, p (Event.logInfo m) = false)
    (h3 : p Event.showDockerOutput = false)
    (h4 : p Event.sdkSubmit = false)
    (h5 : ∀ n, p (Event.telemetry n) = false)
    (h6 : ∀ m d, p (Event.logSuccess m d) = false)
    (h7 : p Event.showOutput = false)
    (h8 : ∀ m, p (Event.logError m) = false) :
    ((finalPhase evaluate action actioning actioned target args td ptn ptm env).1).countP
      p = 0 := by
  unfold finalPhase dockerEvents sdkOutcomeEvents
  rcases env.sdkResponse with r | err <;> split <;>
    simp [List.countP_append, List.countP_cons, h1, h2, h3, h4, h5, h6, h7, h8]
  all_goals intro a ha
  all_goals rcases endorsementLogs_mem _ _ ha with ⟨m, rfl⟩
  all_goals exact h8 m

theorem finalPhase_milestones (evaluate : Bool) (action actioning actioned : String)
    (target : ResolvedTarget) (args : JsVal) (td : Option JsVal)
    (ptn : List String) (ptm : String) (env : Env) :
    ∃ k, ((finalPhase evaluate action actioning actioned target args td ptn ptm
      env).1).filterMap milestone = 5 :: List.replicate (k + 1) 6 := by
  unfold finalPhase dockerEvents sdkOutcomeEvents
  rcases env.sdkResponse with err | r
  · refine ⟨err.endorsements.length, ?_⟩
    split <;>
      simp [milestone, List.filterMap_append, endorsementLogs_milestones, List.replicate_succ]
  · exact ⟨0, by split <;> simp [milestone, List.filterMap_append]⟩

theorem submitTransaction_shape (evaluate : Bool) (treeItem : Option TreeItem)
    (ch sc : Option String) (env : Env) :
    (∃ e1, resolvePhase treeItem ch sc env = (e1, none) ∧
      submitTransaction evaluate treeItem ch sc env =
        ⟨[Event.logInfo (actionWord evaluate ++ "Transaction")] ++ e1, none⟩) ∨
    (∃ e1 target e2, resolvePhase treeItem ch sc env = (e1, some target) ∧
      argsPhase env = (e2, none) ∧
      submitTransaction evaluate treeItem ch sc env =
        ⟨[Event.logInfo (actionWord evaluate ++ "Transaction")] ++ e1 ++ e2, none⟩) ∨
    (∃ e1 target e2 args e3, resolvePhase treeItem ch sc env = (e1, some target) ∧
      argsPhase env = (e2, some args) ∧ transientPhase env = (e3, none) ∧
      submitTransaction evaluate treeItem ch sc env =
        ⟨[Event.logInfo (actionWord evaluate ++ "Transaction")] ++ e1 ++ e2 ++ e3, none⟩) ∨
    (∃ e1 target e2 args e3 td e4, resolvePhase treeItem ch sc env = (e1, some target) ∧
      argsPhase env = (e2, some args) ∧ transientPhase env = (e3, some td) ∧
      peersPhase env = (e4, none) ∧
      submitTransaction evaluate treeItem ch sc env =
        ⟨[Event.logInfo (actionWord evaluate ++ "Transaction")] ++ e1 ++ e2 ++ e3 ++ e4,
         none⟩) ∨
    (∃ e1 target e2 args e3 td e4 pt e5 call,
      resolvePhase treeItem ch sc env = (e1, some target) ∧
      argsPhase env = (e2, some args) ∧ transientPhase env = (e3, some td) ∧
      peersPhase env = (e4, some pt) ∧
      finalPhase evaluate (actionWord evaluate) (actioningWord evaluate)
        (actionedWord evaluate) target args td pt.1 pt.2 env = (e5, call) ∧
      submitTransaction evaluate treeItem ch sc env =
        ⟨[Event.logInfo (actionWord evaluate ++ "Transaction")] ++ e1 ++ e2 ++ e3 ++ e4 ++ e5,
         some call⟩) := by
  rcases h1 : resolvePhase treeItem ch sc env with ⟨e1, _ | target⟩
  · exact Or.inl ⟨e1, rfl, by simp [submitTransaction, h1]⟩
  · rcases h2 : argsPhase env with ⟨e2, _ | args⟩
    · exact Or.inr (Or.inl ⟨e1, target, e2, rfl, rfl, by simp [submitTransaction, h1, h2]⟩)
    · rcases h3 : transientPhase env with ⟨e3, _ | td⟩
      · exact Or.inr (Or.inr (Or.inl ⟨e1, target, e2, args, e3, rfl, rfl, rfl,
          by simp [submitTransaction, h1, h2, h3]⟩))
      · rcases h4 : peersPhase env with ⟨e4, _ | pt⟩
        · exact Or.inr (Or.inr (Or.inr (Or.inl ⟨e1, target, e2, args, e3, td, e4, rfl, rfl,
            rfl, rfl, by simp [submitTransaction, h1, h2, h3, h4]⟩)))
        · rcases pt with ⟨names, msg⟩
          rcases h5 : finalPhase evaluate (actionWord evaluate) (actioningWord evaluate)
            (actionedWord evaluate) target args td names msg env with ⟨e5, call⟩
          exact Or.inr (Or.inr (Or.inr (Or.inr ⟨e1, target, e2, args, e3, td, e4,
            (names, msg), e5, call, rfl, rfl, rfl, rfl, h5,
            by simp [submitTransaction, h1, h2, h3, h4, h5]⟩)))

theorem pairwise_le_const (l : List Nat) (k : Nat) (h : ∀ x ∈ l, x = k) :
    l.Pairwise (fun a b => a ≤ b) := by
  induction l with
  | nil => exact List.Pairwise.nil
  | cons a t ih =>
    refine List.Pairwise.cons (fun b hb => ?_)
      (ih (fun x hx => h x (List.mem_cons_of_mem a hx)))
    rw [h a (List.mem_cons_self a t), h b (List.mem_cons_of_mem a hb)]

theorem pairwise_le_append (l₁ l₂ : List Nat) (k : Nat)
    (h₁ : ∀ x ∈ l₁, x ≤ k) (h₂ : ∀ x ∈ l₂, k ≤ x)
    (p₁ : l₁.Pairwise (fun a b => a ≤ b)) (p₂ : l₂.Pairwise (fun a b => a ≤ b)) :
    (l₁ ++ l₂).Pairwise (fun a b => a ≤ b) := by
  rw [List.pairwise_append]
  exact ⟨p₁, p₂, fun a ha b hb => le_trans (h₁ a ha) (h₂ b hb)⟩

theorem resolvePhase_milestones (treeItem : Option TreeItem) (ch sc : Option String)
    (env : Env) (x : Nat)
    (hx : x ∈ ((resolvePhase treeItem ch sc env).1).filterMap milestone) : x = 1 := by
  rcases List.mem_filterMap.mp hx with ⟨e, he, hm⟩
  rcases resolvePhase_mem treeItem ch sc env e he with rfl | rfl | rfl <;>
    simp [milestone] at hm <;> omega

theorem milestones_sorted_assembly (m1 m4 m5 : List Nat) (k : Nat)
    (h1 : ∀ x ∈ m1, x = 1) (h4 : ∀ x ∈ m4, x = 4) (h4m : 4 ∈ m4)
    (h5 : m5 = 5 :: List.replicate (k + 1) 6) :
    (m1 ++ 2 :: 3 :: (m4 ++ m5)).Pairwise (fun a b => a ≤ b) ∧
    2 ∈ m1 ++ 2 :: 3 :: (m4 ++ m5) ∧ 3 ∈ m1 ++ 2 :: 3 :: (m4 ++ m5) ∧
    4 ∈ m1 ++ 2 :: 3 :: (m4 ++ m5) ∧ 5 ∈ m1 ++ 2 :: 3 :: (m4 ++ m5) ∧
    6 ∈ m1 ++ 2 :: 3 :: (m4 ++ m5) := by
  subst h5
  have h5ge : ∀ x ∈ 5 :: List.replicate (k + 1) 6, 5 ≤ x := by
    intro x hx
    rcases List.mem_cons.mp hx with rfl | hx
    · omega
    · rw [List.eq_of_mem_replicate hx]
      omega
  have p5 : (5 :: List.replicate (k + 1) 6).Pairwise (fun a b => a ≤ b) := by
    refine List.Pairwise.cons (fun b hb => ?_)
      (pairwise_le_const _ 6 (fun x hx => List.eq_of_mem_replicate hx))
    rw [List.eq_of_mem_replicate hb]
    omega
  have p45 : (m4 ++ 5 :: List.replicate (k + 1) 6).Pairwise (fun a b => a ≤ b) :=
    pairwise_le_append _ _ 4 (fun x hx => le_of_eq (h4 x hx))
      (fun x hx => le_trans (by omega) (h5ge x hx))
      (pairwise_le_const _ 4 h4) p5
  have h45ge : ∀ x ∈ m4 ++ 5 :: List.replicate (k + 1) 6, 4 ≤ x := by
    intro x hx
    rcases List.mem_append.mp hx with hx | hx
    · exact le_of_eq (h4 x hx).symm
    · exact le_trans (by omega) (h5ge x hx)
  have p2345 : (2 :: 3 :: (m4 ++ 5 :: List.replicate (k + 1) 6)).Pairwise
      (fun a b => a ≤ b) := by
    refine List.Pairwise.cons (fun b hb => ?_)
      (List.Pairwise.cons (fun b hb => le_trans (by omega) (h45ge b hb)) p45)
    rcases List.mem_cons.mp hb with rfl | hb
    · omega
    · exact le_trans (by omega) (h45ge b hb)
  refine ⟨pairwise_le_append _ _ 2 (fun x hx => by rw [h1 x hx]; omega) ?_
      (pairwise_le_const _ 1 h1) p2345, ?_, ?_, ?_, ?_, ?_⟩
  · intro x hx
    rcases List.mem_cons.mp hx with rfl | hx
    · omega
    rcases List.mem_cons.mp hx with rfl | hx
    · omega
    · exact le_trans (by omega) (h45ge x hx)
  · exact List.mem_append.mpr (Or.inr (List.mem_cons_self _ _))
  · exact List.mem_append.mpr (Or.inr (List.mem_cons_of_mem _ (List.mem_cons_self _ _)))
  · exact List.mem_append.mpr (Or.inr (List.mem_cons_of_mem _ (List.mem_cons_of_mem _
      (List.mem_append.mpr (Or.inl h4m)))))
  · exact List.mem_append.mpr (Or.inr (List.mem_cons_of_mem _ (List.mem_cons_of_mem _
      (List.mem_append.mpr (Or.inr (List.mem_cons_self _ _))))))
  · exact List.mem_append.mpr (Or.inr (List.mem_cons_of_mem _ (List.mem_cons_of_mem _
      (List.mem_append.mpr (Or.inr (List.mem_cons_of_mem _
        (List.mem_replicate.mpr ⟨Nat.succ_ne_zero k, rfl⟩)))))))

theorem countP_zero_of_mem {p : Event → Bool} (l : List Event)
    (h : ∀ e ∈ l, p e = false) : l.countP p = 0 := by
  rw [List.countP_eq_zero]
  intro a ha
  simp [h a ha]

theorem isLogErrorEvent_eq (e : Event) (h : isLogErrorEvent e = true) :
    ∃ m, e = Event.logError m := by
  cases e <;> simp [isLogErrorEvent] at h
  exact ⟨_, rfl⟩

theorem resolvePhase_countP_zero (treeItem : Option TreeItem) (ch sc : Option String)
    (env : Env) (p : Event → Bool)
    (h1 : p Event.connectCommand = false) (h2 : p Event.promptSmartContract = false)
    (h3 : p Event.promptTransaction = false) :
    ((resolvePhase treeItem ch sc env).1).countP p = 0 :=
  countP_zero_of_mem _ (fun e he => by
    rcases resolvePhase_mem treeItem ch sc env e he with rfl | rfl | rfl <;> assumption)

theorem argsPhase_countP_zero (env : Env) (p : Event → Bool)
    (h1 : p Event.promptArgs = false) (h2 : ∀ m, p (Event.logError m) = false) :
    ((argsPhase env).1).countP p = 0 :=
  countP_zero_of_mem _ (fun e he => by
    rcases argsPhase_mem env e he with rfl | hl
    · exact h1
    · obtain ⟨m, rfl⟩ := isLogErrorEvent_eq e hl
      exact h2 m)

theorem transientPhase_countP_zero (env : Env) (p : Event → Bool)
    (h1 : p Event.promptTransient = false) (h2 : ∀ m, p (Event.logError m) = false) :
    ((transientPhase env).1).countP p = 0 :=
  countP_zero_of_mem _ (fun e he => by
    rcases transientPhase_mem env e he with rfl | hl
    · exact h1
    · obtain ⟨m, rfl⟩ := isLogErrorEvent_eq e hl
      exact h2 m)

theorem peersPhase_countP_zero (env : Env) (p : Event → Bool)
    (h1 : p Event.getChannelPeers = false) (h2 : p Event.promptPeerPolicy = false)
    (h3 : p Event.promptCustomPeers = false) (h4 : ∀ m, p (Event.logError m) = false) :
    ((peersPhase env).1).countP p = 0 :=
  countP_zero_of_mem _ (fun e he => by
    rcases peersPhase_mem env e he with rfl | rfl | rfl | hl
    · exact h1
    · exact h2
    · exact h3
    · obtain ⟨m, rfl⟩ := isLogErrorEvent_eq e hl
      exact h4 m)

/-! The claims. -/

/-- Claim C1: for every invocation of `submitTransaction`, if the
user-typed argument string is non-empty and malformed JSON (the bracket
check fails or `JSON.parse` throws), the command logs an error message
and returns without ever calling
`IFabricClientConnection.submitTransaction`; and the arguments are
forwarded only when the string is empty (giving `[]`) or is bracketed
and parses as JSON. -/
theorem c1_malformed_args_abort (evaluate : Bool) (treeItem : Option TreeItem)
    (ch sc : Option String) (env : Env) (s : String)
    (hin : env.argsInput = some s) :
    (s ≠ "" →
     (jsStartsWith s "[" = false ∨ jsEndsWith s "]" = false ∨
       (∃ m, env.jsonParse s = Except.error m)) →
     Event.promptArgs ∈ (submitTransaction evaluate treeItem ch sc env).trace →
     ((∃ m, Event.logError m ∈ (submitTransaction evaluate treeItem ch sc env).trace) ∧
      (submitTransaction evaluate treeItem ch sc env).sdkCall = none ∧
      (submitTransaction evaluate treeItem ch sc env).trace.countP isSdkSubmitEvent = 0)) ∧
    (∀ c, (submitTransaction evaluate treeItem ch sc env).sdkCall = some c →
      (s = "" ∧ c.args = JsVal.arr []) ∨
      (jsStartsWith s "[" = true ∧ jsEndsWith s "]" = true ∧
       env.jsonParse s = Except.ok c.args)) := by
  constructor
  · intro hne hmal hprompt
    obtain ⟨m, hm⟩ := argsPhase_malformed env s hin hne hmal
    rcases submitTransaction_shape evaluate treeItem ch sc env with
      ⟨e1, hr, heq⟩ | ⟨e1, target, e2, hr, ha, heq⟩ |
      ⟨e1, target, e2, args, e3, hr, ha, ht, heq⟩ |
      ⟨e1, target, e2, args, e3, td, e4, hr, ha, ht, hp, heq⟩ |
      ⟨e1, target, e2, args, e3, td, e4, pt, e5, call, hr, ha, ht, hp, hf, heq⟩
    · exfalso
      rw [heq] at hprompt
      simp only [List.mem_append, List.mem_cons, List.not_mem_nil, or_false] at hprompt
      rcases hprompt with hprompt | hprompt
      · exact absurd hprompt (by simp)
      · have hr1 : (resolvePhase treeItem ch sc env).1 = e1 := by rw [hr]
        rcases resolvePhase_mem treeItem ch sc env _ (hr1 ▸ hprompt) with h | h | h <;>
          simp at h
    · rw [hm] at ha
      have he2 : e2 = [Event.promptArgs, Event.logError m] := by
        have := congrArg Prod.fst ha
        simp at this
        exact this.symm
      subst he2
      refine ⟨⟨m, ?_⟩, by rw [heq], ?_⟩
      · rw [heq]
        simp
      · rw [heq]
        simp only [List.countP_append]
        have hz1 : e1.countP isSdkSubmitEvent = 0 := by
          refine countP_zero_of_mem e1 (fun e he => ?_)
          have hr1 : (resolvePhase treeItem ch sc env).1 = e1 := by rw [hr]
          rcases resolvePhase_mem treeItem ch sc env e (hr1 ▸ he) with rfl | rfl | rfl <;> rfl
        simp [hz1, isSdkSubmitEvent]
    · rw [hm] at ha
      exact absurd (congrArg Prod.snd ha) (by simp)
    · rw [hm] at ha
      exact absurd (congrArg Prod.snd ha) (by simp)
    · rw [hm] at ha
      exact absurd (congrArg Prod.snd ha) (by simp)
  · intro c hc
    rcases submitTransaction_shape evaluate treeItem ch sc env with
      ⟨e1, hr, heq⟩ | ⟨e1, target, e2, hr, ha, heq⟩ |
      ⟨e1, target, e2, args, e3, hr, ha, ht, heq⟩ |
      ⟨e1, target, e2, args, e3, td, e4, hr, ha, ht, hp, heq⟩ |
      ⟨e1, target, e2, args, e3, td, e4, pt, e5, call, hr, ha, ht, hp, hf, heq⟩
    · rw [heq] at hc; exact absurd hc (by simp)
    · rw [heq] at hc; exact absurd hc (by simp)
    · rw [heq] at hc; exact absurd hc (by simp)
    · rw [heq] at hc; exact absurd hc (by simp)
    · rw [heq] at hc
      simp only [Option.some.injEq] at hc
      subst hc
      have hcall : call = ⟨target.smartContract, target.transactionName, target.channelName,
          args, target.nspace, td, evaluate, pt.1⟩ := by
        have := finalPhase_call evaluate (actionWord evaluate) (actioningWord evaluate)
          (actionedWord evaluate) target args td pt.1 pt.2 env
        rw [hf] at this
        exact this
      obtain ⟨-, s', hin', hdisj⟩ := argsPhase_some env e2 args ha
      rw [hin] at hin'
      have hss : s = s' := by
        simpa using hin'
      subst hss
      simpa [hcall] using hdisj

/-- Claim C2: for every invocation of `submitTransaction`, if
`getChannelPeersInfo` returns an empty list of channel peers, the
command logs an error and returns without showing any peer-targeting
prompt and without calling `IFabricClientConnection.submitTransaction`. -/
theorem c2_no_peers_abort (evaluate : Bool) (treeItem : Option TreeItem)
    (ch sc : Option String) (env : Env)
    (hempty : env.channelPeers = [])
    (hreach : Event.getChannelPeers ∈ (submitTransaction evaluate treeItem ch sc env).trace) :
    Event.logError "No channel peers available to target" ∈
      (submitTransaction evaluate treeItem ch sc env).trace ∧
    (submitTransaction evaluate treeItem ch sc env).trace.countP isPeerPromptEvent = 0 ∧
    (submitTransaction evaluate treeItem ch sc env).sdkCall = none := by
  have hpp := peersPhase_empty env hempty
  rcases submitTransaction_shape evaluate treeItem ch sc env with
    ⟨e1, hr, heq⟩ | ⟨e1, target, e2, hr, ha, heq⟩ |
    ⟨e1, target, e2, args, e3, hr, ha, ht, heq⟩ |
    ⟨e1, target, e2, args, e3, td, e4, hr, ha, ht, hp, heq⟩ |
    ⟨e1, target, e2, args, e3, td, e4, pt, e5, call, hr, ha, ht, hp, hf, heq⟩
  · exfalso
    rw [heq] at hreach
    simp only [List.mem_append, List.mem_cons, List.not_mem_nil, or_false] at hreach
    rcases hreach with h | h
    · simp at h
    · have hr1 : (resolvePhase treeItem ch sc env).1 = e1 := by rw [hr]
      rcases resolvePhase_mem treeItem ch sc env _ (hr1 ▸ h) with h | h | h <;> simp at h
  · exfalso
    rw [heq] at hreach
    simp only [List.mem_append, List.mem_cons, List.not_mem_nil, or_false] at hreach
    rcases hreach with (h | h) | h
    · simp at h
    · have hr1 : (resolvePhase treeItem ch sc env).1 = e1 := by rw [hr]
      rcases resolvePhase_mem treeItem ch sc env _ (hr1 ▸ h) with h | h | h <;> simp at h
    · have ha1 : (argsPhase env).1 = e2 := by rw [ha]
      rcases argsPhase_mem env _ (ha1 ▸ h) with h | h
      · simp at h
      · simp [isLogErrorEvent] at h
  · exfalso
    rw [heq] at hreach
    simp only [List.mem_append, List.mem_cons, List.not_mem_nil, or_false] at hreach
    rcases hreach with ((h | h) | h) | h
    · simp at h
    · have hr1 : (resolvePhase treeItem ch sc env).1 = e1 := by rw [hr]
      rcases resolvePhase_mem treeItem ch sc env _ (hr1 ▸ h) with h | h | h <;> simp at h
    · have ha1 : (argsPhase env).1 = e2 := by rw [ha]
      rcases argsPhase_mem env _ (ha1 ▸ h) with h | h
      · simp at h
      · simp [isLogErrorEvent] at h
    · have ht1 : (transientPhase env).1 = e3 := by rw [ht]
      rcases transientPhase_mem env _ (ht1 ▸ h) with h | h
      · simp at h
      · simp [isLogErrorEvent] at h
  · have he4 : e4 =
        [Event.getChannelPeers, Event.logError "No channel peers available to target"] := by
      rw [hpp] at hp
      have := congrArg Prod.fst hp
      simpa using this.symm
    subst he4
    refine ⟨?_, ?_, by rw [heq]⟩
    · rw [heq]
      simp
    · rw [heq]
      simp only [List.countP_append]
      have hr1 : (resolvePhase treeItem ch sc env).1 = e1 := by rw [hr]
      have ha1 : (argsPhase env).1 = e2 := by rw [ha]
      have ht1 : (transientPhase env).1 = e3 := by rw [ht]
      rw [← hr1, ← ha1, ← ht1]
      rw [resolvePhase_countP_zero treeItem ch sc env isPeerPromptEvent rfl rfl rfl,
          argsPhase_countP_zero env isPeerPromptEvent rfl (fun m => rfl),
          transientPhase_countP_zero env isPeerPromptEvent rfl (fun m => rfl)]
      simp [List.countP_cons, isPeerPromptEvent]
  · exfalso
    rw [hpp] at hp
    exact absurd (congrArg Prod.snd hp) (by simp)

/-- Claim C3: every exception thrown by the delegated
`IFabricClientConnection.submitTransaction` call is caught, logged as a
user-visible error message, and the command returns normally (the model
is total); the SDK call is made at most once per invocation. -/
theorem c3_sdk_errors_caught (evaluate : Bool) (treeItem : Option TreeItem)
    (ch sc : Option String) (env : Env) :
    (submitTransaction evaluate treeItem ch sc env).trace.countP isSdkSubmitEvent ≤ 1 ∧
    (∀ c err, (submitTransaction evaluate treeItem ch sc env).sdkCall = some c →
      env.sdkResponse = Except.error err →
      Event.logError ("Error " ++ actioningWord evaluate ++ " transaction: " ++ err.message) ∈
        (submitTransaction evaluate treeItem ch sc env).trace) := by
  rcases submitTransaction_shape evaluate treeItem ch sc env with
    ⟨e1, hr, heq⟩ | ⟨e1, target, e2, hr, ha, heq⟩ |
    ⟨e1, target, e2, args, e3, hr, ha, ht, heq⟩ |
    ⟨e1, target, e2, args, e3, td, e4, hr, ha, ht, hp, heq⟩ |
    ⟨e1, target, e2, args, e3, td, e4, pt, e5, call, hr, ha, ht, hp, hf, heq⟩
  · refine ⟨?_, fun c err hc _ => absurd (heq ▸ hc) (by simp)⟩
    rw [heq]
    simp only [List.countP_append]
    have hr1 : (resolvePhase treeItem ch sc env).1 = e1 := by rw [hr]
    rw [← hr1, resolvePhase_countP_zero treeItem ch sc env isSdkSubmitEvent rfl rfl rfl]
    simp [List.countP_cons, isSdkSubmitEvent]
  · refine ⟨?_, fun c err hc _ => absurd (heq ▸ hc) (by simp)⟩
    rw [heq]
    simp only [List.countP_append]
    have hr1 : (resolvePhase treeItem ch sc env).1 = e1 := by rw [hr]
    have ha1 : (argsPhase env).1 = e2 := by rw [ha]
    rw [← hr1, ← ha1,
        resolvePhase_countP_zero treeItem ch sc env isSdkSubmitEvent rfl rfl rfl,
        argsPhase_countP_zero env isSdkSubmitEvent rfl (fun m => rfl)]
    simp [List.countP_cons, isSdkSubmitEvent]
  · refine ⟨?_, fun c err hc _ => absurd (heq ▸ hc) (by simp)⟩
    rw [heq]
    simp only [List.countP_append]
    have hr1 : (resolvePhase treeItem ch sc env).1 = e1 := by rw [hr]
    have ha1 : (argsPhase env).1 = e2 := by rw [ha]
    have ht1 : (transientPhase env).1 = e3 := by rw [ht]
    rw [← hr1, ← ha1, ← ht1,
        resolvePhase_countP_zero treeItem ch sc env isSdkSubmitEvent rfl rfl rfl,
        argsPhase_countP_zero env isSdkSubmitEvent rfl (fun m => rfl),
        transientPhase_countP_zero env isSdkSubmitEvent rfl (fun m => rfl)]
    simp [List.countP_cons, isSdkSubmitEvent]
  · refine ⟨?_, fun c err hc _ => absurd (heq ▸ hc) (by simp)⟩
    rw [heq]
    simp only [List.countP_append]
    have hr1 : (resolvePhase treeItem ch sc env).1 = e1 := by rw [hr]
    have ha1 : (argsPhase env).1 = e2 := by rw [ha]
    have ht1 : (transientPhase env).1 = e3 := by rw [ht]
    have hp1 : (peersPhase env).1 = e4 := by rw [hp]
    rw [← hr1, ← ha1, ← ht1, ← hp1,
        resolvePhase_countP_zero treeItem ch sc env isSdkSubmitEvent rfl rfl rfl,
        argsPhase_countP_zero env isSdkSubmitEvent rfl (fun m => rfl),
        transientPhase_countP_zero env isSdkSubmitEvent rfl (fun m => rfl),
        peersPhase_countP_zero env isSdkSubmitEvent rfl rfl rfl (fun m => rfl)]
    simp [List.countP_cons, isSdkSubmitEvent]
  · have hf1 : (finalPhase evaluate (actionWord evaluate) (actioningWord evaluate)
        (actionedWord evaluate) target args td pt.1 pt.2 env).1 = e5 := by rw [hf]
    constructor
    · rw [heq]
      simp only [List.countP_append]
      have hr1 : (resolvePhase treeItem ch sc env).1 = e1 := by rw [hr]
      have ha1 : (argsPhase env).1 = e2 := by rw [ha]
      have ht1 : (transientPhase env).1 = e3 := by rw [ht]
      have hp1 : (peersPhase env).1 = e4 := by rw [hp]
      rw [← hr1, ← ha1, ← ht1, ← hp1, ← hf1,
          resolvePhase_countP_zero treeItem ch sc env isSdkSubmitEvent rfl rfl rfl,
          argsPhase_countP_zero env isSdkSubmitEvent rfl (fun m => rfl),
          transientPhase_countP_zero env isSdkSubmitEvent rfl (fun m => rfl),
          peersPhase_countP_zero env isSdkSubmitEvent rfl rfl rfl (fun m => rfl),
          finalPhase_sdk_count]
      simp [List.countP_cons, isSdkSubmitEvent]
    · intro c err hc herr
      rw [heq]
      have hmem := finalPhase_error_log evaluate (actionWord evaluate) (actioningWord evaluate)
        (actionedWord evaluate) target args td pt.1 pt.2 env err herr
      rw [hf1] at hmem
      simp only [List.mem_append]
      exact Or.inr hmem

/-- Claim C4 (amended): for every invocation in which the delegated SDK
call is reached, exactly one telemetry event — named after the evaluate
flag — is sent when the SDK call succeeds, and no telemetry event is
sent when the SDK call throws. -/
theorem c4_telemetry_per_outcome (evaluate : Bool) (treeItem : Option TreeItem)
    (ch sc : Option String) (env : Env) (c : SdkCall)
    (hc : (submitTransaction evaluate treeItem ch sc env).sdkCall = some c) :
    (∀ r, env.sdkResponse = Except.ok r →
      (submitTransaction evaluate treeItem ch sc env).trace.countP isTelemetryEvent = 1 ∧
      Event.telemetry (actionWord evaluate ++ " transaction") ∈
        (submitTransaction evaluate treeItem ch sc env).trace) ∧
    (∀ err, env.sdkResponse = Except.error err →
      (submitTransaction evaluate treeItem ch sc env).trace.countP isTelemetryEvent = 0) := by
  rcases submitTransaction_shape evaluate treeItem ch sc env with
    ⟨e1, hr, heq⟩ | ⟨e1, target, e2, hr, ha, heq⟩ |
    ⟨e1, target, e2, args, e3, hr, ha, ht, heq⟩ |
    ⟨e1, target, e2, args, e3, td, e4, hr, ha, ht, hp, heq⟩ |
    ⟨e1, target, e2, args, e3, td, e4, pt, e5, call, hr, ha, ht, hp, hf, heq⟩
  · exact absurd (heq ▸ hc) (by simp)
  · exact absurd (heq ▸ hc) (by simp)
  · exact absurd (heq ▸ hc) (by simp)
  · exact absurd (heq ▸ hc) (by simp)
  · have hf1 : (finalPhase evaluate (actionWord evaluate) (actioningWord evaluate)
        (actionedWord evaluate) target args td pt.1 pt.2 env).1 = e5 := by rw [hf]
    have hr1 : (resolvePhase treeItem ch sc env).1 = e1 := by rw [hr]
    have ha1 : (argsPhase env).1 = e2 := by rw [ha]
    have ht1 : (transientPhase env).1 = e3 := by rw [ht]
    have hp1 : (peersPhase env).1 = e4 := by rw [hp]
    constructor
    · intro r hok
      constructor
      · rw [heq]
        simp only [List.countP_append]
        rw [← hr1, ← ha1, ← ht1, ← hp1, ← hf1,
            resolvePhase_countP_zero treeItem ch sc env isTelemetryEvent rfl rfl rfl,
            argsPhase_countP_zero env isTelemetryEvent rfl (fun m => rfl),
            transientPhase_countP_zero env isTelemetryEvent rfl (fun m => rfl),
            peersPhase_countP_zero env isTelemetryEvent rfl rfl rfl (fun m => rfl),
            (finalPhase_telemetry_ok evaluate (actionWord evaluate) (actioningWord evaluate)
              (actionedWord evaluate) target args td pt.1 pt.2 env r hok).1]
        simp [List.countP_cons, isTelemetryEvent]
      · rw [heq]
        have hmem := (finalPhase_telemetry_ok evaluate (actionWord evaluate)
          (actioningWord evaluate) (actionedWord evaluate) target args td pt.1 pt.2
          env r hok).2
        rw [hf1] at hmem
        simp only [List.mem_append]
        exact Or.inr hmem
    · intro err herr
      rw [heq]
      simp only [List.countP_append]
      rw [← hr1, ← ha1, ← ht1, ← hp1, ← hf1,
          resolvePhase_countP_zero treeItem ch sc env isTelemetryEvent rfl rfl rfl,
          argsPhase_countP_zero env isTelemetryEvent rfl (fun m => rfl),
          transientPhase_countP_zero env isTelemetryEvent rfl (fun m => rfl),
          peersPhase_countP_zero env isTelemetryEvent rfl rfl rfl (fun m => rfl),
          finalPhase_telemetry_error evaluate (actionWord evaluate) (actioningWord evaluate)
            (actionedWord evaluate) target args td pt.1 pt.2 env err herr]
      simp [List.countP_cons, isTelemetryEvent]

/-- Claim C4, counterexample: a run that reaches the delegated SDK call
but whose SDK call throws sends no telemetry event at all, refuting
"exactly one telemetry event regardless of whether the SDK call
succeeds or fails". -/
theorem c4_counterexample :
    (submitTransaction false (some sampleTreeItem) none none sdkFailEnv).sdkCall.isSome = true ∧
    (submitTransaction false (some sampleTreeItem) none none sdkFailEnv).trace.countP
      isTelemetryEvent = 0 := by
  constructor <;> rfl

/-- Witness for C4 (amended) at a concrete failing run. -/
theorem c4_telemetry_per_outcome_witness :
    (submitTransaction false (some sampleTreeItem) none none sdkFailEnv).sdkCall =
      some ⟨some "fabcar", "createCar", some "mychannel", JsVal.arr [], "FabCar",
            none, false, []⟩ ∧
    (submitTransaction false (some sampleTreeItem) none none sdkFailEnv).trace.countP
      isTelemetryEvent = 0 :=
  ⟨rfl, (c4_telemetry_per_outcome false (some sampleTreeItem) none none sdkFailEnv
      ⟨some "fabcar", "createCar", some "mychannel", JsVal.arr [], "FabCar", none, false, []⟩
      rfl).2 ⟨"endorse fail", ["bad endorsement"]⟩ rfl⟩

/-- Claim C5: every complete run (one that reaches the delegated SDK
call) performs its phases in this fixed order: resolve the target
contract and transaction, prompt for JSON arguments, prompt for JSON
transient data, resolve the peer-targeting policy, make the single
delegated connection call, and finally report a success or failure
string.  The phase milestones of the trace are nondecreasing and each
of the phases 2-6 occurs. -/
theorem c5_phase_order (evaluate : Bool) (treeItem : Option TreeItem)
    (ch sc : Option String) (env : Env) (c : SdkCall)
    (hc : (submitTransaction evaluate treeItem ch sc env).sdkCall = some c) :
    ((submitTransaction evaluate treeItem ch sc env).trace.filterMap milestone).Pairwise
      (fun a b => a ≤ b) ∧
    2 ∈ (submitTransaction evaluate treeItem ch sc env).trace.filterMap milestone ∧
    3 ∈ (submitTransaction evaluate treeItem ch sc env).trace.filterMap milestone ∧
    4 ∈ (submitTransaction evaluate treeItem ch sc env).trace.filterMap milestone ∧
    5 ∈ (submitTransaction evaluate treeItem ch sc env).trace.filterMap milestone ∧
    6 ∈ (submitTransaction evaluate treeItem ch sc env).trace.filterMap milestone := by
  rcases submitTransaction_shape evaluate treeItem ch sc env with
    ⟨e1, hr, heq⟩ | ⟨e1, target, e2, hr, ha, heq⟩ |
    ⟨e1, target, e2, args, e3, hr, ha, ht, heq⟩ |
    ⟨e1, target, e2, args, e3, td, e4, hr, ha, ht, hp, heq⟩ |
    ⟨e1, target, e2, args, e3, td, e4, pt, e5, call, hr, ha, ht, hp, hf, heq⟩
  · exact absurd (heq ▸ hc) (by simp)
  · exact absurd (heq ▸ hc) (by simp)
  · exact absurd (heq ▸ hc) (by simp)
  · exact absurd (heq ▸ hc) (by simp)
  · have hf1 : (finalPhase evaluate (actionWord evaluate) (actioningWord evaluate)
        (actionedWord evaluate) target args td pt.1 pt.2 env).1 = e5 := by rw [hf]
    have hr1 : (resolvePhase treeItem ch sc env).1 = e1 := by rw [hr]
    obtain ⟨he2, -⟩ := argsPhase_some env e2 args ha
    obtain ⟨he3, -⟩ := transientPhase_some env e3 td ht
    obtain ⟨he4shapes, -⟩ := peersPhase_some env e4 pt hp
    obtain ⟨k, hm5⟩ := finalPhase_milestones evaluate (actionWord evaluate)
      (actioningWord evaluate) (actionedWord evaluate) target args td pt.1 pt.2 env
    rw [hf1] at hm5
    subst he2 he3
    rw [heq]
    dsimp only
    have hms : (([Event.logInfo (actionWord evaluate ++ "Transaction")] ++ e1 ++
        [Event.promptArgs] ++ [Event.promptTransient] ++ e4 ++ e5).filterMap milestone) =
        e1.filterMap milestone ++
          2 :: 3 :: (e4.filterMap milestone ++ e5.filterMap milestone) := by
      simp [List.filterMap_append, milestone]
    rw [hms]
    refine milestones_sorted_assembly (e1.filterMap milestone) (e4.filterMap milestone)
      (e5.filterMap milestone) k ?_ ?_ ?_ hm5
    · intro x hx
      exact resolvePhase_milestones treeItem ch sc env x (hr1 ▸ hx)
    · intro x hx
      rcases he4shapes with rfl | rfl | rfl <;> simpa [milestone] using hx
    · rcases he4shapes with rfl | rfl | rfl <;> simp [milestone]

/-- Claim C6: whenever the delegated call is reached, the command calls
`IFabricClientConnection.submitTransaction` with the arguments
(contract, transaction name, channel, args, namespace, transient data,
evaluateOnly, peer targets) in that order — the fields of `SdkCall` —
and the `evaluateOnly` argument equals the evaluate flag. -/
theorem c6_sdk_call_shape (evaluate : Bool) (treeItem : Option TreeItem)
    (ch sc : Option String) (env : Env) (c : SdkCall)
    (hc : (submitTransaction evaluate treeItem ch sc env).sdkCall = some c) :
    c.evaluateOnly = evaluate ∧
    ∃ target args td pt e1 e2 e3 e4,
      resolvePhase treeItem ch sc env = (e1, some target) ∧
      argsPhase env = (e2, some args) ∧
      transientPhase env = (e3, some td) ∧
      peersPhase env = (e4, some pt) ∧
      c = ⟨target.smartContract, target.transactionName, target.channelName, args,
           target.nspace, td, evaluate, pt.1⟩ := by
  rcases submitTransaction_shape evaluate treeItem ch sc env with
    ⟨e1, hr, heq⟩ | ⟨e1, target, e2, hr, ha, heq⟩ |
    ⟨e1, target, e2, args, e3, hr, ha, ht, heq⟩ |
    ⟨e1, target, e2, args, e3, td, e4, hr, ha, ht, hp, heq⟩ |
    ⟨e1, target, e2, args, e3, td, e4, pt, e5, call, hr, ha, ht, hp, hf, heq⟩
  · exact absurd (heq ▸ hc) (by simp)
  · exact absurd (heq ▸ hc) (by simp)
  · exact absurd (heq ▸ hc) (by simp)
  · exact absurd (heq ▸ hc) (by simp)
  · rw [heq] at hc
    simp only [Option.some.injEq] at hc
    subst hc
    have hcall : call = ⟨target.smartContract, target.transactionName, target.channelName,
        args, target.nspace, td, evaluate, pt.1⟩ := by
      have := finalPhase_call evaluate (actionWord evaluate) (actioningWord evaluate)
        (actionedWord evaluate) target args td pt.1 pt.2 env
      rw [hf] at this
      exact this
    exact ⟨by rw [hcall], target, args, td, pt, e1, e2, e3, e4, hr, ha, ht, hp, hcall⟩

/-- Claim C7, counterexample: a parameter whose declared schema type is
`object` matches none of the template branches, so no stub line is
emitted and no entry is pushed onto the generated args list — refuting
the claim for the fifth listed type. -/
theorem c7_counterexample :
    paramEmission ⟨"owner", some ⟨some "object"⟩⟩ = ParamEmission.skipped ∧
    parameterStubs [⟨"owner", some ⟨some "object"⟩⟩] = ([], []) ∧
    generatedArgsLine [⟨"owner", some ⟨some "object"⟩⟩] = "const args = [];" := by
  refine ⟨rfl, rfl, ?_⟩
  decide

/-- Claim C7 (amended): a parameter with declared schema type `string`,
`number`, `boolean` or `array` gets a `const` stub and a corresponding
entry in the generated args list, and those four are the only truthy
declared types that do; a parameter without a truthy schema type gets
the object-literal fallback stub; every emitted stub and entry is
prepended to the lists generated for the remaining parameters. -/
theorem c7_param_stubs (p : TransactionParameter) :
    (∀ t, schemaTypeTruthy p = some t →
      ((t = "string" ∨ t = "number" ∨ t = "boolean" ∨ t = "array") ↔
        ∃ stub entry, paramEmission p = ParamEmission.emits stub entry)) ∧
    (schemaTypeTruthy p = none →
      paramEmission p = ParamEmission.emits
        ("const " ++ replaceFirstQuote p.name ++ " = \x7b\x7d;")
        (" JSON.stringify(" ++ replaceFirstQuote p.name ++ ")")) ∧
    (∀ rest stub entry, paramEmission p = ParamEmission.emits stub entry →
      parameterStubs (p :: rest) =
        (stub :: (parameterStubs rest).1, entry :: (parameterStubs rest).2)) := by
  refine ⟨?_, ?_, ?_⟩
  · intro t ht
    constructor
    · intro hd
      unfold paramEmission
      rw [ht]
      rcases hd with rfl | rfl | rfl | rfl
      · exact ⟨_, _, rfl⟩
      · exact ⟨_, _, rfl⟩
      · exact ⟨_, _, rfl⟩
      · exact ⟨_, _, rfl⟩
    · rintro ⟨stub, entry, he⟩
      unfold paramEmission at he
      rw [ht] at he
      by_contra hno
      push_neg at hno
      obtain ⟨h1, h2, h3, h4⟩ := hno
      dsimp only at he
      rw [if_neg h1, if_neg h2, if_neg h3, if_neg h4] at he
      exact ParamEmission.noConfusion he
  · intro h
    unfold paramEmission
    rw [h]
  · intro rest stub entry he
    simp only [parameterStubs, he]

/-- Witness for C7 (amended) at a concrete string-typed parameter. -/
theorem c7_param_stubs_witness :
    schemaTypeTruthy ⟨"make", some ⟨some "string"⟩⟩ = some "string" ∧
    (("string" = "string" ∨ "string" = "number" ∨ "string" = "boolean" ∨
        "string" = "array") ↔
      ∃ stub entry, paramEmission ⟨"make", some ⟨some "string"⟩⟩ =
        ParamEmission.emits stub entry) :=
  ⟨by decide, (c7_param_stubs ⟨"make", some ⟨some "string"⟩⟩).1 "string" (by decide)⟩

/-- Claim C8: when the user enters a non-empty transient-data string
other than the empty-object literal, it passes validation, and the
delegated call is reached, every value of the parsed transient-data
object has been replaced by a buffer built from that value in the
object handed to `IFabricClientConnection.submitTransaction`. -/
theorem c8_transient_bufferized (evaluate : Bool) (treeItem : Option TreeItem)
    (ch sc : Option String) (env : Env) (s : String)
    (fields : List (String × JsVal)) (c : SdkCall)
    (hin : env.transientInput = some s) (hne : s ≠ "") (hne2 : s ≠ "\x7b\x7d")
    (hparse : env.jsonParse s = Except.ok (JsVal.obj fields))
    (hc : (submitTransaction evaluate treeItem ch sc env).sdkCall = some c) :
    c.transientData =
      some (JsVal.obj (fields.map (fun kv => (kv.1, JsVal.buffer kv.2)))) := by
  rcases submitTransaction_shape evaluate treeItem ch sc env with
    ⟨e1, hr, heq⟩ | ⟨e1, target, e2, hr, ha, heq⟩ |
    ⟨e1, target, e2, args, e3, hr, ha, ht, heq⟩ |
    ⟨e1, target, e2, args, e3, td, e4, hr, ha, ht, hp, heq⟩ |
    ⟨e1, target, e2, args, e3, td, e4, pt, e5, call, hr, ha, ht, hp, hf, heq⟩
  · exact absurd (heq ▸ hc) (by simp)
  · exact absurd (heq ▸ hc) (by simp)
  · exact absurd (heq ▸ hc) (by simp)
  · exact absurd (heq ▸ hc) (by simp)
  · rw [heq] at hc
    simp only [Option.some.injEq] at hc
    subst hc
    have hcall : call = ⟨target.smartContract, target.transactionName, target.channelName,
        args, target.nspace, td, evaluate, pt.1⟩ := by
      have := finalPhase_call evaluate (actionWord evaluate) (actioningWord evaluate)
        (actionedWord evaluate) target args td pt.1 pt.2 env
      rw [hf] at this
      exact this
    obtain ⟨-, s', hin', hd⟩ := transientPhase_some env e3 td ht
    rw [hin] at hin'
    have hss : s = s' := by simpa using hin'
    subst hss
    rcases hd with ⟨hs, -⟩ | ⟨-, -, j, hj, htd⟩
    · rcases hs with rfl | rfl
      · exact absurd rfl hne
      · exact absurd rfl hne2
    · rw [hparse] at hj
      injection hj with hj
      subst hj
      subst htd
      rw [hcall]
      simp [bufferizeTransient]

/-- Claim C9: when exactly one channel peer is available the
peer-targeting policy prompt is skipped, and whenever the default
policy is in effect — implied by a single peer or chosen at the prompt
— the peer-target list passed to the delegated call is empty. -/
theorem c9_default_policy (evaluate : Bool) (treeItem : Option TreeItem)
    (ch sc : Option String) (env : Env) :
    (env.channelPeers.length = 1 →
      (submitTransaction evaluate treeItem ch sc env).trace.countP
        isPeerPolicyPromptEvent = 0) ∧
    (∀ c, (submitTransaction evaluate treeItem ch sc env).sdkCall = some c →
      (env.channelPeers.length = 1 ∨ env.peerPolicyChoice = some UserInputUtil.DEFAULT) →
      c.peerTargetNames = []) := by
  constructor
  · intro hone
    rcases submitTransaction_shape evaluate treeItem ch sc env with
      ⟨e1, hr, heq⟩ | ⟨e1, target, e2, hr, ha, heq⟩ |
      ⟨e1, target, e2, args, e3, hr, ha, ht, heq⟩ |
      ⟨e1, target, e2, args, e3, td, e4, hr, ha, ht, hp, heq⟩ |
      ⟨e1, target, e2, args, e3, td, e4, pt, e5, call, hr, ha, ht, hp, hf, heq⟩
    · rw [heq]
      simp only [List.countP_append]
      have hr1 : (resolvePhase treeItem ch sc env).1 = e1 := by rw [hr]
      rw [← hr1, resolvePhase_countP_zero treeItem ch sc env isPeerPolicyPromptEvent rfl rfl rfl]
      simp [List.countP_cons, isPeerPolicyPromptEvent]
    · rw [heq]
      simp only [List.countP_append]
      have hr1 : (resolvePhase treeItem ch sc env).1 = e1 := by rw [hr]
      have ha1 : (argsPhase env).1 = e2 := by rw [ha]
      rw [← hr1, ← ha1,
          resolvePhase_countP_zero treeItem ch sc env isPeerPolicyPromptEvent rfl rfl rfl,
          argsPhase_countP_zero env isPeerPolicyPromptEvent rfl (fun m => rfl)]
      simp [List.countP_cons, isPeerPolicyPromptEvent]
    · rw [heq]
      simp only [List.countP_append]
      have hr1 : (resolvePhase treeItem ch sc env).1 = e1 := by rw [hr]
      have ha1 : (argsPhase env).1 = e2 := by rw [ha]
      have ht1 : (transientPhase env).1 = e3 := by rw [ht]
      rw [← hr1, ← ha1, ← ht1,
          resolvePhase_countP_zero treeItem ch sc env isPeerPolicyPromptEvent rfl rfl rfl,
          argsPhase_countP_zero env isPeerPolicyPromptEvent rfl (fun m => rfl),
          transientPhase_countP_zero env isPeerPolicyPromptEvent rfl (fun m => rfl)]
      simp [List.countP_cons, isPeerPolicyPromptEvent]
    · exfalso
      rw [peersPhase_single env hone] at hp
      exact absurd (congrArg Prod.snd hp) (by simp)
    · have he4 : e4 = [Event.getChannelPeers] := by
        rw [peersPhase_single env hone] at hp
        have := congrArg Prod.fst hp
        simpa using this.symm
      subst he4
      rw [heq]
      simp only [List.countP_append]
      have hr1 : (resolvePhase treeItem ch sc env).1 = e1 := by rw [hr]
      have ha1 : (argsPhase env).1 = e2 := by rw [ha]
      have ht1 : (transientPhase env).1 = e3 := by rw [ht]
      have hf1 : (finalPhase evaluate (actionWord evaluate) (actioningWord evaluate)
          (actionedWord evaluate) target args td pt.1 pt.2 env).1 = e5 := by rw [hf]
      rw [← hr1, ← ha1, ← ht1, ← hf1,
          resolvePhase_countP_zero treeItem ch sc env isPeerPolicyPromptEvent rfl rfl rfl,
          argsPhase_countP_zero env isPeerPolicyPromptEvent rfl (fun m => rfl),
          transientPhase_countP_zero env isPeerPolicyPromptEvent rfl (fun m => rfl),
          finalPhase_countP_zero evaluate (actionWord evaluate) (actioningWord evaluate)
            (actionedWord evaluate) target args td pt.1 pt.2 env isPeerPolicyPromptEvent
            (fun m => rfl) (fun m => rfl) rfl rfl (fun n => rfl) (fun m d => rfl) rfl
            (fun m => rfl)]
      simp [List.countP_cons, isPeerPolicyPromptEvent]
  · intro c hc hd
    rcases submitTransaction_shape evaluate treeItem ch sc env with
      ⟨e1, hr, heq⟩ | ⟨e1, target, e2, hr, ha, heq⟩ |
      ⟨e1, target, e2, args, e3, hr, ha, ht, heq⟩ |
      ⟨e1, target, e2, args, e3, td, e4, hr, ha, ht, hp, heq⟩ |
      ⟨e1, target, e2, args, e3, td, e4, pt, e5, call, hr, ha, ht, hp, hf, heq⟩
    · exact absurd (heq ▸ hc) (by simp)
    · exact absurd (heq ▸ hc) (by simp)
    · exact absurd (heq ▸ hc) (by simp)
    · exact absurd (heq ▸ hc) (by simp)
    · rw [heq] at hc
      simp only [Option.some.injEq] at hc
      subst hc
      have hcall : call = ⟨target.smartContract, target.transactionName, target.channelName,
          args, target.nspace, td, evaluate, pt.1⟩ := by
        have := finalPhase_call evaluate (actionWord evaluate) (actioningWord evaluate)
          (actionedWord evaluate) target args td pt.1 pt.2 env
        rw [hf] at this
        exact this
      have hpt := peersPhase_default env e4 pt hp hd
      rw [hcall]
      exact hpt

/-- Claim C10: when the user enters the empty string or the literal
empty-object string at the transient-data prompt, the transient-data
argument passed to the delegated call is `undefined` (modelled `none`),
not an empty object. -/
theorem c10_empty_transient_undefined (evaluate : Bool) (treeItem : Option TreeItem)
    (ch sc : Option String) (env : Env) (s : String) (c : SdkCall)
    (hin : env.transientInput = some s) (hs : s = "" ∨ s = "\x7b\x7d")
    (hc : (submitTransaction evaluate treeItem ch sc env).sdkCall = some c) :
    c.transientData = none ∧ c.transientData ≠ some (JsVal.obj []) := by
  rcases submitTransaction_shape evaluate treeItem ch sc env with
    ⟨e1, hr, heq⟩ | ⟨e1, target, e2, hr, ha, heq⟩ |
    ⟨e1, target, e2, args, e3, hr, ha, ht, heq⟩ |
    ⟨e1, target, e2, args, e3, td, e4, hr, ha, ht, hp, heq⟩ |
    ⟨e1, target, e2, args, e3, td, e4, pt, e5, call, hr, ha, ht, hp, hf, heq⟩
  · exact absurd (heq ▸ hc) (by simp)
  · exact absurd (heq ▸ hc) (by simp)
  · exact absurd (heq ▸ hc) (by simp)
  · exact absurd (heq ▸ hc) (by simp)
  · rw [heq] at hc
    simp only [Option.some.injEq] at hc
    subst hc
    have hcall : call = ⟨target.smartContract, target.transactionName, target.channelName,
        args, target.nspace, td, evaluate, pt.1⟩ := by
      have := finalPhase_call evaluate (actionWord evaluate) (actioningWord evaluate)
        (actionedWord evaluate) target args td pt.1 pt.2 env
      rw [hf] at this
      exact this
    obtain ⟨-, s', hin', hd⟩ := transientPhase_some env e3 td ht
    rw [hin] at hin'
    have hss : s = s' := by simpa using hin'
    subst hss
    rcases hd with ⟨-, htd⟩ | ⟨hne, hne2, -⟩
    · subst htd
      rw [hcall]
      exact ⟨rfl, by simp⟩
    · rcases hs with rfl | rfl
      · exact absurd rfl hne
      · exact absurd rfl hne2

/-- Witness for C1 at a concrete malformed argument string. -/
theorem c1_malformed_args_abort_witness :
    badArgsEnv.argsInput = some "oops" ∧
    (submitTransaction false (some sampleTreeItem) none none badArgsEnv).sdkCall = none ∧
    (submitTransaction false (some sampleTreeItem) none none badArgsEnv).trace.countP
      isSdkSubmitEvent = 0 := by
  refine ⟨rfl, ?_, ?_⟩ <;>
  · have h := (c1_malformed_args_abort false (some sampleTreeItem) none none badArgsEnv
      "oops" rfl).1 (by decide) (Or.inl (by decide)) (by decide)
    first
    | exact h.2.1
    | exact h.2.2

/-- Witness for C2 at a concrete zero-peer run. -/
theorem c2_no_peers_abort_witness :
    noPeersEnv.channelPeers = [] ∧
    Event.logError "No channel peers available to target" ∈
      (submitTransaction false (some sampleTreeItem) none none noPeersEnv).trace ∧
    (submitTransaction false (some sampleTreeItem) none none noPeersEnv).sdkCall = none := by
  refine ⟨rfl, ?_, ?_⟩ <;>
  · have h := c2_no_peers_abort false (some sampleTreeItem) none none noPeersEnv rfl
      (by decide)
    first
    | exact h.1
    | exact h.2.2

/-- Witness for C3 at a concrete run whose SDK call throws. -/
theorem c3_sdk_errors_caught_witness :
    (submitTransaction false (some sampleTreeItem) none none sdkFailEnv).trace.countP
      isSdkSubmitEvent ≤ 1 ∧
    Event.logError "Error submitting transaction: endorse fail" ∈
      (submitTransaction false (some sampleTreeItem) none none sdkFailEnv).trace := by
  refine ⟨(c3_sdk_errors_caught false (some sampleTreeItem) none none sdkFailEnv).1, ?_⟩
  have h := (c3_sdk_errors_caught false (some sampleTreeItem) none none sdkFailEnv).2
    ⟨some "fabcar", "createCar", some "mychannel", JsVal.arr [], "FabCar", none, false, []⟩
    ⟨"endorse fail", ["bad endorsement"]⟩ rfl rfl
  exact h

/-- Witness for C5 at a concrete successful run. -/
theorem c5_phase_order_witness :
    (submitTransaction false (some sampleTreeItem) none none baseEnv).sdkCall =
      some ⟨some "fabcar", "createCar", some "mychannel", JsVal.arr [], "FabCar",
            none, false, []⟩ ∧
    ((submitTransaction false (some sampleTreeItem) none none baseEnv).trace.filterMap
      milestone).Pairwise (fun a b => a ≤ b) ∧
    5 ∈ (submitTransaction false (some sampleTreeItem) none none baseEnv).trace.filterMap
      milestone :=
  ⟨rfl, (c5_phase_order false (some sampleTreeItem) none none baseEnv
      ⟨some "fabcar", "createCar", some "mychannel", JsVal.arr [], "FabCar",
       none, false, []⟩ rfl).1,
   (c5_phase_order false (some sampleTreeItem) none none baseEnv
      ⟨some "fabcar", "createCar", some "mychannel", JsVal.arr [], "FabCar",
       none, false, []⟩ rfl).2.2.2.2.1⟩

/-- Witness for C6 at a concrete successful run. -/
theorem c6_sdk_call_shape_witness :
    (submitTransaction false (some sampleTreeItem) none none baseEnv).sdkCall =
      some ⟨some "fabcar", "createCar", some "mychannel", JsVal.arr [], "FabCar",
            none, false, []⟩ ∧
    SdkCall.evaluateOnly ⟨some "fabcar", "createCar", some "mychannel", JsVal.arr [],
      "FabCar", none, false, []⟩ = false :=
  ⟨rfl, (c6_sdk_call_shape false (some sampleTreeItem) none none baseEnv
    ⟨some "fabcar", "createCar", some "mychannel", JsVal.arr [], "FabCar",
     none, false, []⟩ rfl).1⟩

/-- Witness for C8 at a concrete transient-data run. -/
theorem c8_transient_bufferized_witness :
    transientEnv.transientInput = some "\x7b\x22k\x22:\x22v\x22\x7d" ∧
    (submitTransaction false (some sampleTreeItem) none none transientEnv).sdkCall =
      some ⟨some "fabcar", "createCar", some "mychannel", JsVal.arr [], "FabCar",
            some (JsVal.obj [("k", JsVal.buffer (JsVal.str "v"))]), false, []⟩ ∧
    SdkCall.transientData ⟨some "fabcar", "createCar", some "mychannel", JsVal.arr [],
        "FabCar", some (JsVal.obj [("k", JsVal.buffer (JsVal.str "v"))]), false, []⟩ =
      some (JsVal.obj [("k", JsVal.buffer (JsVal.str "v"))]) :=
  ⟨rfl, rfl,
   c8_transient_bufferized false (some sampleTreeItem) none none transientEnv
     "\x7b\x22k\x22:\x22v\x22\x7d" [("k", JsVal.str "v")]
     ⟨some "fabcar", "createCar", some "mychannel", JsVal.arr [], "FabCar",
      some (JsVal.obj [("k", JsVal.buffer (JsVal.str "v"))]), false, []⟩
     rfl (by decide) (by decide) rfl rfl⟩

/-- Witness for C9 at a concrete single-peer run. -/
theorem c9_default_policy_witness :
    baseEnv.channelPeers.length = 1 ∧
    (submitTransaction false (some sampleTreeItem) none none baseEnv).trace.countP
      isPeerPolicyPromptEvent = 0 ∧
    SdkCall.peerTargetNames ⟨some "fabcar", "createCar", some "mychannel", JsVal.arr [],
      "FabCar", none, false, []⟩ = [] :=
  ⟨rfl, (c9_default_policy false (some sampleTreeItem) none none baseEnv).1 rfl,
   (c9_default_policy false (some sampleTreeItem) none none baseEnv).2
     ⟨some "fabcar", "createCar", some "mychannel", JsVal.arr [], "FabCar",
      none, false, []⟩ rfl (Or.inl rfl)⟩

/-- Witness for C10 at a concrete empty transient input. -/
theorem c10_empty_transient_undefined_witness :
    baseEnv.transientInput = some "" ∧
    SdkCall.transientData ⟨some "fabcar", "createCar", some "mychannel", JsVal.arr [],
      "FabCar", none, false, []⟩ = none :=
  ⟨rfl, (c10_empty_transient_undefined false (some sampleTreeItem) none none baseEnv ""
    ⟨some "fabcar", "createCar", some "mychannel", JsVal.arr [], "FabCar",
     none, false, []⟩ rfl (Or.inl rfl) rfl).1⟩

end BlockchainExtension
